import Mathlib

/-!
Verification of the registry abstraction and version-resolution/upgrade engine
of the codemod toolkit (src/registry.ts and the upgrade module).

The development shallowly embeds the TypeScript source:
* JavaScript regular expressions are embedded as a small pattern AST (`Pat`)
  together with a backtracking matcher whose result order follows the
  JavaScript priority order (leftmost match, greedy/lazy quantifiers,
  left-biased alternation), so that `test`, `match` (with capture groups)
  and `replace` agree with the engine the source runs on.
* JavaScript values that can be a string, `undefined` or `null` are embedded
  as `JsVal`; thrown errors are embedded as `Except JsErr`.
* Network fetches are embedded as injected oracles (the parsed response
  document, or a page-feed function), and each fetcher model additionally
  returns the number of fetches it performed together with the updated cache,
  so caching and pagination claims can be stated exactly.
-/

/-- JavaScript string-or-undefined-or-null values (a regex capture group is a
string when it participated in the match and `undefined` otherwise; it is
never `null`). -/
inductive JsVal where
  | nullv
  | undefv
  | str (s : String)
deriving Repr, DecidableEq

/-- JavaScript errors: `thrown msg` is an explicit `throw Error(msg)`;
`typeError msg` is an implicit TypeError (property access on
`null`/`undefined`, destructuring `null`, calling a method of `undefined`). -/
inductive JsErr where
  | thrown (msg : String)
  | typeError (msg : String)
deriving Repr, DecidableEq

deriving instance DecidableEq for Except

/-- Template-literal conversion: how a `JsVal` prints inside a JS template
string. -/
def JsVal.toTemplate : JsVal → String
  | .nullv => "null"
  | .undefv => "undefined"
  | .str s => s

/-- Pattern AST for the JavaScript regexes appearing in the source.
`cls neg cs` is a character class `[...]` (`neg = true` for `[^...]`),
`dot` is `.` (any character except a newline), `eol` is the `$` anchor,
`star lz p` is `p*` (`lz = true` for the lazy `p*?`), `group n p` is the
`n`-th capturing group, and `nla p` is the negative lookahead `(?!p)`. -/
inductive Pat where
  | eps
  | lit (c : Char)
  | cls (neg : Bool) (cs : List Char)
  | dot
  | eol
  | seq (p q : Pat)
  | alt (p q : Pat)
  | star (lz : Bool) (p : Pat)
  | group (n : Nat) (p : Pat)
  | nla (p : Pat)
deriving Repr

/-- Capture record: `(group index, start, stop)`, most recent first. -/
abbrev Caps := List (Nat × Nat × Nat)

/-- Does character `c` satisfy the class `[cs]` (or `[^cs]` when `neg`)? -/
def clsMatch (neg : Bool) (cs : List Char) (c : Char) : Bool :=
  if neg then !(cs.contains c) else cs.contains c

/-- Iterate a quantified sub-pattern. `m` matches one occurrence; `bound`
limits the number of further iterations (called with `bound` at least the
number of remaining characters plus one, which is enough because an
iteration that consumes nothing ends the loop, as in JavaScript).
Results are in JavaScript priority order: a greedy star prefers more
iterations, a lazy star prefers fewer. -/
def starIter (m : List Char → Nat → Caps → List (Nat × Caps)) (lz : Bool)
    (s : List Char) : Nat → Nat → Caps → List (Nat × Caps)
  | 0, i, caps => [(i, caps)]
  | bound + 1, i, caps =>
    let iter := (m s i caps).flatMap
      (fun r => if i < r.1 then starIter m lz s bound r.1 r.2 else [])
    if lz then (i, caps) :: iter else iter ++ [(i, caps)]

/-- Backtracking matcher. `mtch p s i caps` returns every way `p` can match
a prefix of `s` starting at index `i`, as `(end index, captures)`, in
JavaScript priority order (head = the match JavaScript commits to). -/
def mtch : Pat → List Char → Nat → Caps → List (Nat × Caps)
  | .eps, _, i, caps => [(i, caps)]
  | .lit c, s, i, caps =>
    match s.get? i with
    | some d => if d = c then [(i + 1, caps)] else []
    | none => []
  | .cls neg cs, s, i, caps =>
    match s.get? i with
    | some d => if clsMatch neg cs d then [(i + 1, caps)] else []
    | none => []
  | .dot, s, i, caps =>
    match s.get? i with
    | some d => if d = '\n' then [] else [(i + 1, caps)]
    | none => []
  | .eol, s, i, caps => if i = s.length then [(i, caps)] else []
  | .seq p q, s, i, caps =>
    (mtch p s i caps).flatMap (fun r => mtch q s r.1 r.2)
  | .alt p q, s, i, caps => mtch p s i caps ++ mtch q s i caps
  | .star lz p, s, i, caps => starIter (mtch p) lz s (s.length + 1 - i) i caps
  | .group n p, s, i, caps =>
    (mtch p s i caps).map (fun r => (r.1, (n, i, r.1) :: r.2))
  | .nla p, s, i, caps =>
    if (mtch p s i caps).isEmpty then [(i, caps)] else []

/-- A JavaScript regex literal: its pattern, and whether it is anchored with
a leading `^`. -/
structure JsRegex where
  anchored : Bool
  pat : Pat

/-- Scan the start positions `i, i+1, ...` (at most `b` further positions)
and return the first (leftmost) match as `(start, stop, captures)`. -/
def searchIter (p : Pat) (s : List Char) : Nat → Nat → Option (Nat × Nat × Caps)
  | 0, i => (mtch p s i []).head?.map (fun r => (i, r.1, r.2))
  | b + 1, i =>
    match (mtch p s i []).head? with
    | some r => some (i, r.1, r.2)
    | none => searchIter p s b (i + 1)

/-- The match JavaScript finds: leftmost start position, then the engine's
priority order (this is what `RegExp.prototype.exec` / `String.match`
commit to). -/
def jsSearch (re : JsRegex) (s : String) : Option (Nat × Nat × Caps) :=
  if re.anchored then
    (mtch re.pat s.data 0 []).head?.map (fun r => (0, r.1, r.2))
  else
    searchIter re.pat s.data s.data.length 0

/-- JavaScript `regexp.test(string)`. -/
def jsTest (re : JsRegex) (s : String) : Bool :=
  (jsSearch re s).isSome

/-- Substring of `s` between indices `a` (inclusive) and `b` (exclusive). -/
def substr (s : List Char) (a b : Nat) : String :=
  String.mk ((s.drop a).take (b - a))

/-- Value of capture group `n` of a match: the captured substring, or
`undefined` when the group did not participate (never `null`, which is what
the source's `=== null` checks silently rely on not noticing). -/
def jsGroup (s : String) (m : Nat × Nat × Caps) (n : Nat) : JsVal :=
  match (m.2.2.find? (fun t => t.1 = n)).map (fun t => t.2) with
  | some ab => .str (substr s.data ab.1 ab.2)
  | none => .undefv

/-- JavaScript `string.replace(regexp, replacement)` for a plain replacement
string: splice the replacement over the leftmost match (identity when there
is no match). -/
def jsReplaceFirst (re : JsRegex) (s : String) (repl : String) : String :=
  match jsSearch re s with
  | none => s
  | some m => String.mk (s.data.take m.1) ++ repl ++ String.mk (s.data.drop m.2.1)

/-- Sequence a list of patterns. -/
def pseq : List Pat → Pat
  | [] => .eps
  | [p] => p
  | p :: ps => .seq p (pseq ps)

/-- Literal string pattern. -/
def pstr (s : String) : Pat :=
  pseq (s.data.map Pat.lit)

/-- Greedy `p?`. -/
def popt (p : Pat) : Pat := .alt p .eps

/-- Greedy `p+`. -/
def pplus (p : Pat) : Pat := .seq p (.star false p)

/-- Lazy `p*?`. -/
def plazy (p : Pat) : Pat := .star true p

/-- The apostrophe character (appears in several of the source's character
classes). -/
def apos : Char := Char.ofNat 39

/-!
The registry variant set. One tag per class implementing `RegistryUrl`, in
the source order of their declarations; `REGISTRIES` is the priority list the
dispatcher iterates.
-/

/-- One tag per supported registry dialect (per `RegistryUrl` class). -/
inductive RegTag where
  | jsr | denoLand | unpkgScope | unpkg | denopkg | paxDenoDev | jspm
  | pikaScope | pika | skypackScope | skypack | esmShScope | esmSh
  | githubRaw | gitlabRaw | jsDelivr | nestLand | npm
deriving Repr, DecidableEq

/-- A `RegistryUrl` instance: the class it was constructed as, plus the raw
specifier string it holds. -/
structure RegUrl where
  tag : RegTag
  url : String
deriving Repr, DecidableEq

/-- Character class `[^/]`. -/
def clsNotSlash : Pat := .cls true ['/']

/-- Character class `[^@/]`. -/
def clsNotAtSlash : Pat := .cls true ['@', '/']

/-- Character class `[^\/\"\']`. -/
def clsNotSlashQuotes : Pat := .cls true ['/', '"', apos]

/-- Character class `[^\'\"]`. -/
def clsNotQuotes : Pat := .cls true [apos, '"']

/-- Pattern `https?:\/\/`. -/
def phttp : Pat := pseq [pstr "http", popt (.lit 's'), pstr "://"]

/-- `DenoLand.regexp = /https?:\/\/deno.land\/(?:std\@[^\'\"]*|x\/[^\/\"\']*?\@[^\'\"]*)/`
(the dot in `deno.land` is unescaped in the source, hence `Pat.dot`). -/
def DenoLand.regexp : JsRegex :=
  ⟨false, pseq [phttp, pstr "deno", .dot, pstr "land/",
    .alt (pseq [pstr "std@", .star false clsNotQuotes])
      (pseq [pstr "x/", plazy clsNotSlashQuotes, .lit '@', .star false clsNotQuotes])]⟩

/-- `Jsr.regexp = /jsr:(\@[^/]+\/[^@/]+|[^@/]+)(?:\@([^\/\"\']+))?[^\'\"]/` -/
def Jsr.regexp : JsRegex :=
  ⟨false, pseq [pstr "jsr:",
    .group 1 (.alt (pseq [.lit '@', pplus clsNotSlash, .lit '/', pplus clsNotAtSlash])
      (pplus clsNotAtSlash)),
    popt (pseq [.lit '@', .group 2 (pplus clsNotSlashQuotes)]),
    clsNotQuotes]⟩

/-- `Jsr.parseRegex = /^jsr:(\/?\@[^/]+\/[^@/]+|\/?[^@/]+)(?:\@([^/]+))?(.*)/` -/
def Jsr.parseRegex : JsRegex :=
  ⟨true, pseq [pstr "jsr:",
    .group 1 (.alt
      (pseq [popt (.lit '/'), .lit '@', pplus clsNotSlash, .lit '/', pplus clsNotAtSlash])
      (pseq [popt (.lit '/'), pplus clsNotAtSlash])),
    popt (pseq [.lit '@', .group 2 (pplus clsNotSlash)]),
    .group 3 (.star false .dot)]⟩

/-- `Npm.regexp = /npm:(\@[^/]+\/[^@/]+|[^@/]+)(?:\@([^\/\"\']+))?[^\'\"]/` -/
def Npm.regexp : JsRegex :=
  ⟨false, pseq [pstr "npm:",
    .group 1 (.alt (pseq [.lit '@', pplus clsNotSlash, .lit '/', pplus clsNotAtSlash])
      (pplus clsNotAtSlash)),
    popt (pseq [.lit '@', .group 2 (pplus clsNotSlashQuotes)]),
    clsNotQuotes]⟩

/-- `Npm.parseRegex = /^npm:(\@[^/]+\/[^@/]+|[^@/]+)(?:\@([^/]+))?(.*)/` -/
def Npm.parseRegex : JsRegex :=
  ⟨true, pseq [pstr "npm:",
    .group 1 (.alt (pseq [.lit '@', pplus clsNotSlash, .lit '/', pplus clsNotAtSlash])
      (pplus clsNotAtSlash)),
    popt (pseq [.lit '@', .group 2 (pplus clsNotSlash)]),
    .group 3 (.star false .dot)]⟩

/-- `UnpkgScope.regexp = /https?:\/\/unpkg\.com\/@[^\/\"\']*?\/[^\/\"\']*?\@[^\'\"]*/`
(escaped dot: literal). -/
def UnpkgScope.regexp : JsRegex :=
  ⟨false, pseq [phttp, pstr "unpkg.com/@", plazy clsNotSlashQuotes, .lit '/',
    plazy clsNotSlashQuotes, .lit '@', .star false clsNotQuotes]⟩

/-- `Unpkg.regexp = /https?:\/\/unpkg.com\/[^\/\"\']*?\@[^\'\"]*/`
(the dot in `unpkg.com` is unescaped). -/
def Unpkg.regexp : JsRegex :=
  ⟨false, pseq [phttp, pstr "unpkg", .dot, pstr "com/", plazy clsNotSlashQuotes,
    .lit '@', .star false clsNotQuotes]⟩

/-- `Jspm.regexp = /https?:\/\/dev.jspm.io\/[^\/\"\']*?\@[^\'\"]*/` -/
def Jspm.regexp : JsRegex :=
  ⟨false, pseq [phttp, pstr "dev", .dot, pstr "jspm", .dot, pstr "io/",
    plazy clsNotSlashQuotes, .lit '@', .star false clsNotQuotes]⟩

/-- `Denopkg.regexp = /https?:\/\/denopkg.com\/[^\/\"\']*?\/[^\/\"\']*?\@[^\'\"]*/` -/
def Denopkg.regexp : JsRegex :=
  ⟨false, pseq [phttp, pstr "denopkg", .dot, pstr "com/", plazy clsNotSlashQuotes,
    .lit '/', plazy clsNotSlashQuotes, .lit '@', .star false clsNotQuotes]⟩

/-- `PaxDenoDev.regexp = /https?:\/\/pax.deno.dev\/[^\/\"\']*?\/[^\/\"\']*?\@[^\'\"]*/` -/
def PaxDenoDev.regexp : JsRegex :=
  ⟨false, pseq [phttp, pstr "pax", .dot, pstr "deno", .dot, pstr "dev/",
    plazy clsNotSlashQuotes, .lit '/', plazy clsNotSlashQuotes, .lit '@',
    .star false clsNotQuotes]⟩

/-- `PikaScope.regexp = /https?:\/\/cdn\.pika\.dev(\/\_)?\/@[^\/\"\']*?\/[^\/\"\']*?\@[^\'\"]*/` -/
def PikaScope.regexp : JsRegex :=
  ⟨false, pseq [phttp, pstr "cdn.pika.dev", popt (.group 1 (pstr "/_")), pstr "/@",
    plazy clsNotSlashQuotes, .lit '/', plazy clsNotSlashQuotes, .lit '@',
    .star false clsNotQuotes]⟩

/-- `Pika.regexp = /https?:\/\/cdn.pika.dev(\/\_)?\/[^\/\"\']*?\@[^\'\"]*/` -/
def Pika.regexp : JsRegex :=
  ⟨false, pseq [phttp, pstr "cdn", .dot, pstr "pika", .dot, pstr "dev",
    popt (.group 1 (pstr "/_")), .lit '/', plazy clsNotSlashQuotes, .lit '@',
    .star false clsNotQuotes]⟩

/-- `SkypackScope.regexp = /https?:\/\/cdn\.skypack\.dev(\/\_)?\/@[^\/\"\']*?\/[^\/\"\']*?\@[^\'\"]*/` -/
def SkypackScope.regexp : JsRegex :=
  ⟨false, pseq [phttp, pstr "cdn.skypack.dev", popt (.group 1 (pstr "/_")), pstr "/@",
    plazy clsNotSlashQuotes, .lit '/', plazy clsNotSlashQuotes, .lit '@',
    .star false clsNotQuotes]⟩

/-- `Skypack.regexp = /https?:\/\/cdn.skypack.dev(\/\_)?\/[^\/\"\']*?\@[^\'\"]*/` -/
def Skypack.regexp : JsRegex :=
  ⟨false, pseq [phttp, pstr "cdn", .dot, pstr "skypack", .dot, pstr "dev",
    popt (.group 1 (pstr "/_")), .lit '/', plazy clsNotSlashQuotes, .lit '@',
    .star false clsNotQuotes]⟩

/-- `EsmShScope.regexp = /https?:\/\/esm\.sh\/@[^\/\"\']*?\/[^\/\"\']*?\@[^\'\"]*/` -/
def EsmShScope.regexp : JsRegex :=
  ⟨false, pseq [phttp, pstr "esm.sh/@", plazy clsNotSlashQuotes, .lit '/',
    plazy clsNotSlashQuotes, .lit '@', .star false clsNotQuotes]⟩

/-- `EsmSh.regexp = /https?:\/\/esm.sh\/[^\/\"\']*?\@[^\'\"]*/` -/
def EsmSh.regexp : JsRegex :=
  ⟨false, pseq [phttp, pstr "esm", .dot, pstr "sh/", plazy clsNotSlashQuotes,
    .lit '@', .star false clsNotQuotes]⟩

/-- `GithubRaw.regexp = /https?:\/\/raw\.githubusercontent\.com\/[^\/\"\']+\/[^\/\"\']+\/(?!master)[^\/\"\']+\/[^\'\"]*/` -/
def GithubRaw.regexp : JsRegex :=
  ⟨false, pseq [phttp, pstr "raw.githubusercontent.com/", pplus clsNotSlashQuotes,
    .lit '/', pplus clsNotSlashQuotes, .lit '/', .nla (pstr "master"),
    pplus clsNotSlashQuotes, .lit '/', .star false clsNotQuotes]⟩

/-- `GitlabRaw.regexp` (source line 928): `https` prefix, `gitlab.com`, owner and
repo segments, the literal raw-path infix (slash, dash, slash, `raw`, slash),
a non-`master` version segment, a slash, then the usual quote-free tail. -/
def GitlabRaw.regexp : JsRegex :=
  ⟨false, pseq [phttp, pstr "gitlab.com/", pplus clsNotSlashQuotes, .lit '/',
    pplus clsNotSlashQuotes, pstr "/-/raw/", .nla (pstr "master"),
    pplus clsNotSlashQuotes, .lit '/', .star false clsNotQuotes]⟩

/-- `JsDelivr.regexp = /https?:\/\/cdn\.jsdelivr\.net\/gh\/[^\/\"\']+\/[^\/\"\']+@(?!master)[^\/\"\']+\/[^\'\"]*/` -/
def JsDelivr.regexp : JsRegex :=
  ⟨false, pseq [phttp, pstr "cdn.jsdelivr.net/gh/", pplus clsNotSlashQuotes,
    .lit '/', pplus clsNotSlashQuotes, .lit '@', .nla (pstr "master"),
    pplus clsNotSlashQuotes, .lit '/', .star false clsNotQuotes]⟩

/-- `NestLand.regexp = /https?:\/\/x\.nest\.land\/[^\/\"\']+@(?!master)[^\/\"\']+\/[^\'\"]*/` -/
def NestLand.regexp : JsRegex :=
  ⟨false, pseq [phttp, pstr "x.nest.land/", pplus clsNotSlashQuotes, .lit '@',
    .nla (pstr "master"), pplus clsNotSlashQuotes, .lit '/', .star false clsNotQuotes]⟩

/-- The classification regexp of each variant, as assigned in its class body. -/
def regexpOf : RegTag → JsRegex
  | .jsr => Jsr.regexp
  | .denoLand => DenoLand.regexp
  | .unpkgScope => UnpkgScope.regexp
  | .unpkg => Unpkg.regexp
  | .denopkg => Denopkg.regexp
  | .paxDenoDev => PaxDenoDev.regexp
  | .jspm => Jspm.regexp
  | .pikaScope => PikaScope.regexp
  | .pika => Pika.regexp
  | .skypackScope => SkypackScope.regexp
  | .skypack => Skypack.regexp
  | .esmShScope => EsmShScope.regexp
  | .esmSh => EsmSh.regexp
  | .githubRaw => GithubRaw.regexp
  | .gitlabRaw => GitlabRaw.regexp
  | .jsDelivr => JsDelivr.regexp
  | .nestLand => NestLand.regexp
  | .npm => Npm.regexp

/-- The priority-ordered registry list (`export const REGISTRIES = [...]`). -/
def REGISTRIES : List RegTag :=
  [.jsr, .denoLand, .unpkgScope, .unpkg, .denopkg, .paxDenoDev, .jspm,
   .pikaScope, .pika, .skypackScope, .skypack, .esmShScope, .esmSh,
   .githubRaw, .gitlabRaw, .jsDelivr, .nestLand, .npm]

/-- `lookup(url, registries)`: walk the registry list, construct a candidate
instance per constructor, return the first whose `regexp` tests true against
the url; `undefined` (here `none`) when no pattern matches. -/
def lookup (url : String) (registries : List RegTag) : Option RegUrl :=
  match registries with
  | [] => none
  | R :: rest =>
    if jsTest (regexpOf R) url then some ⟨R, url⟩ else lookup url rest

/-!
JavaScript string/array helpers used by the variant methods, then the
`version()` and `at()` implementations of every variant.
-/

/-- JavaScript single-character `string.split(sep)` (accumulator-based; the
result is never empty and keeps empty segments, as in JS). -/
def splitCharAux (sep : Char) : List Char → List Char → List (List Char)
  | [], acc => [acc.reverse]
  | c :: cs, acc =>
    if c = sep then acc.reverse :: splitCharAux sep cs []
    else splitCharAux sep cs (c :: acc)

/-- JavaScript `string.split(sep)` for a one-character separator. -/
def jsSplit (s : String) (sep : Char) : List String :=
  (splitCharAux sep s.data []).map (fun l => String.mk l)

/-- JavaScript `array[i]`: the element, or `undefined` past the end. -/
def jsIndex (l : List String) (i : Nat) : JsVal :=
  match l.get? i with
  | some s => .str s
  | none => .undefv

/-- JavaScript `array[i] = v`: in-place update, padding with holes (which
`join` later renders as empty strings) when `i` is past the end. -/
def jsArraySet (l : List String) (i : Nat) (v : String) : List String :=
  if i < l.length then l.set i v
  else l ++ List.replicate (i - l.length) "" ++ [v]

/-- JavaScript `array.join("/")`. -/
def jsJoin (l : List String) : String :=
  String.intercalate "/" l

/-- JavaScript `version.startsWith("^")`. -/
def jsStartsCaret (v : String) : Bool :=
  v.data.head? = some '^'

/-- JavaScript `version.slice(1)`. -/
def jsSlice1 (v : String) : String :=
  String.mk (v.data.drop 1)

/-- The regex of `defaultAt`: `/@(.*?)(\/|$)/`. -/
def defaultAtRegex : JsRegex :=
  ⟨false, pseq [.lit '@', .group 1 (plazy .dot), .group 2 (.alt (.lit '/') .eol)]⟩

/-- `defaultAt(that, version)`: replace the first `@...(/ or end)` segment of
the raw url with `@version/`. -/
def defaultAt (url : String) (version : String) : String :=
  jsReplaceFirst defaultAtRegex url ("@" ++ version ++ "/")

/-- The regex of `defaultVersion`: `/\@([^\/]+)[\/$]?/` (the `$` inside the
character class is a literal dollar character). -/
def defaultVersionRegex : JsRegex :=
  ⟨false, pseq [.lit '@', .group 1 (pplus clsNotSlash), popt (.cls false ['/', '$'])]⟩

/-- `defaultVersion(that)`: capture group 1 of the first `@segment`, or throw
`Unable to find version in <url>` when the url has no such segment. -/
def defaultVersion (url : String) : Except JsErr JsVal :=
  match jsSearch defaultVersionRegex url with
  | none => .error (.thrown ("Unable to find version in " ++ url))
  | some m => .ok (jsGroup url m 1)

/-- The `PackageInfo` record produced by `defaultInfo`. -/
structure PackageInfo where
  parts : List String
  scope : String
  packageName : String
  version : String
deriving Repr, DecidableEq

/-- `defaultInfo(that)`: split the url on `/`, split segment 4 on `@` into
package name and version, and check scope (segment 3), package name and
version in that order. Reading `parts[4].split` first means a url with fewer
than five segments raises a TypeError before any of the descriptive errors. -/
def defaultInfo (url : String) : Except JsErr PackageInfo :=
  let parts := jsSplit url '/'
  match parts.get? 4 with
  | none => .error (.typeError "Cannot read properties of undefined (reading split)")
  | some p4 =>
    let sub := jsSplit p4 '@'
    match parts.get? 3 with
    | none => .error (.thrown ("Package scope not found in " ++ url))
    | some scope =>
      match sub.get? 0 with
      | none => .error (.thrown ("Package name not found in " ++ url))
      | some packageName =>
        match sub.get? 1 with
        | none => .error (.thrown ("Unable to find version in " ++ url))
        | some version => .ok ⟨parts, scope, packageName, version⟩

/-- `defaultScopeAt(that, version)`: rebuild the url with segment 4 replaced
by `packageName@version`. -/
def defaultScopeAt (url : String) (version : String) : Except JsErr String := do
  let info ← defaultInfo url
  pure (jsJoin (jsArraySet info.parts 4 (info.packageName ++ "@" ++ version)))

/-- `Jsr.version()`: match `parseRegex` (the non-null-asserted match of a
non-matching url raises a TypeError), check the version group against `null`
(never true: an absent group is `undefined`), then strip a leading `^`.
Calling `startsWith` on an absent (`undefined`) group raises a TypeError. -/
def Jsr.version (url : String) : Except JsErr JsVal :=
  match jsSearch Jsr.parseRegex url with
  | none => .error (.typeError "Cannot destructure null match result")
  | some m =>
    let version := jsGroup url m 2
    if version = .nullv then .error (.thrown ("Unable to find version in " ++ url))
    else
      match version with
      | .str v => .ok (.str (if jsStartsCaret v then jsSlice1 v else v))
      | _ => .error (.typeError "Cannot read properties of undefined (reading startsWith)")

/-- `Npm.version()`: match `parseRegex`, check the version group against
`null` (never true: an absent group is `undefined`) and otherwise return it —
including returning `undefined` itself when the url carries no version. -/
def Npm.version (url : String) : Except JsErr JsVal :=
  match jsSearch Npm.parseRegex url with
  | none => .error (.typeError "Cannot destructure null match result")
  | some m =>
    let version := jsGroup url m 2
    if version = .nullv then .error (.thrown ("Unable to find version in " ++ url))
    else .ok version

/-- `GithubRaw.version()`: path segment 5, or throw when absent. -/
def GithubRaw.version (url : String) : Except JsErr JsVal :=
  match (jsSplit url '/').get? 5 with
  | none => .error (.thrown ("Unable to find version in " ++ url))
  | some v => .ok (.str v)

/-- `GitlabRaw.version()`: path segment 7, or throw when absent. -/
def GitlabRaw.version (url : String) : Except JsErr JsVal :=
  match (jsSplit url '/').get? 7 with
  | none => .error (.thrown ("Unable to find version in " ++ url))
  | some v => .ok (.str v)

/-- `JsDelivr.parts()`: split on `/`, then split segment 5 on `@` into repo
and version (version may come out `undefined`). -/
def JsDelivr.parts (url : String) : Except JsErr (List String × String × JsVal) :=
  let parts := jsSplit url '/'
  match parts.get? 5 with
  | none => .error (.typeError "Cannot read properties of undefined (reading split)")
  | some p5 =>
    let sub := jsSplit p5 '@'
    .ok (parts, sub.headD "", jsIndex sub 1)

/-- `JsDelivr.version()`: the version part of `parts()`, or throw when it is
`undefined`. -/
def JsDelivr.version (url : String) : Except JsErr JsVal := do
  let info ← JsDelivr.parts url
  match info.2.2 with
  | .undefv => .error (.thrown ("Unable to find version in " ++ url))
  | v => .ok v

/-- `version()` of every variant. `DenoLand`, `Unpkg`, `Jspm`, `Denopkg`,
`PaxDenoDev`, `Pika`, `Skypack`, `EsmSh` and `NestLand` delegate to
`defaultVersion`; the scope variants read `defaultInfo(...).version`. -/
def RegUrl.version (u : RegUrl) : Except JsErr JsVal :=
  match u.tag with
  | .jsr => Jsr.version u.url
  | .npm => Npm.version u.url
  | .denoLand | .unpkg | .jspm | .denopkg | .paxDenoDev | .pika | .skypack
  | .esmSh | .nestLand => defaultVersion u.url
  | .unpkgScope | .pikaScope | .skypackScope | .esmShScope =>
    (defaultInfo u.url).map (fun info => .str info.version)
  | .githubRaw => GithubRaw.version u.url
  | .gitlabRaw => GitlabRaw.version u.url
  | .jsDelivr => JsDelivr.version u.url

/-- `Jsr.at(version)`: re-parse the url and rebuild
``jsr:`name`@`version``files` `` (template-literal semantics on the groups). -/
def Jsr.at (url : String) (version : String) : Except JsErr RegUrl :=
  match jsSearch Jsr.parseRegex url with
  | none => .error (.typeError "Cannot destructure null match result")
  | some m =>
    .ok ⟨.jsr, "jsr:" ++ (jsGroup url m 1).toTemplate ++ "@" ++ version
      ++ (jsGroup url m 3).toTemplate⟩

/-- `Npm.at(version)`: re-parse the url and rebuild
``npm:`name`@`version``files` ``. -/
def Npm.at (url : String) (version : String) : Except JsErr RegUrl :=
  match jsSearch Npm.parseRegex url with
  | none => .error (.typeError "Cannot destructure null match result")
  | some m =>
    .ok ⟨.npm, "npm:" ++ (jsGroup url m 1).toTemplate ++ "@" ++ version
      ++ (jsGroup url m 3).toTemplate⟩

/-- `JsDelivr.at(version)`: set path segment 5 to `repo@version` and — as
written in the source — construct a `GithubRaw` (not a `JsDelivr`) from the
resulting url. -/
def JsDelivr.at (url : String) (version : String) : Except JsErr RegUrl := do
  let info ← JsDelivr.parts url
  pure ⟨.githubRaw, jsJoin (jsArraySet info.1 5 (info.2.1 ++ "@" ++ version))⟩

/-- `at(version)` of every variant. `GithubRaw` sets path segment 5;
`GitlabRaw` sets path segment 7 but — as written in the source — constructs
a `GithubRaw` from the result, as does `JsDelivr.at`. The scope variants use
`defaultScopeAt`, the remaining variants `defaultAt`, each constructing their
own class. -/
def RegUrl.atVersion (u : RegUrl) (version : String) : Except JsErr RegUrl :=
  match u.tag with
  | .jsr => Jsr.at u.url version
  | .npm => Npm.at u.url version
  | .denoLand => .ok ⟨.denoLand, defaultAt u.url version⟩
  | .unpkg => .ok ⟨.unpkg, defaultAt u.url version⟩
  | .jspm => .ok ⟨.jspm, defaultAt u.url version⟩
  | .denopkg => .ok ⟨.denopkg, defaultAt u.url version⟩
  | .paxDenoDev => .ok ⟨.paxDenoDev, defaultAt u.url version⟩
  | .pika => .ok ⟨.pika, defaultAt u.url version⟩
  | .skypack => .ok ⟨.skypack, defaultAt u.url version⟩
  | .esmSh => .ok ⟨.esmSh, defaultAt u.url version⟩
  | .nestLand => .ok ⟨.nestLand, defaultAt u.url version⟩
  | .unpkgScope => (defaultScopeAt u.url version).map (fun s => ⟨.unpkgScope, s⟩)
  | .pikaScope => (defaultScopeAt u.url version).map (fun s => ⟨.pikaScope, s⟩)
  | .skypackScope => (defaultScopeAt u.url version).map (fun s => ⟨.skypackScope, s⟩)
  | .esmShScope => (defaultScopeAt u.url version).map (fun s => ⟨.esmShScope, s⟩)
  | .githubRaw =>
    .ok ⟨.githubRaw, jsJoin (jsArraySet (jsSplit u.url '/') 5 version)⟩
  | .gitlabRaw =>
    .ok ⟨.githubRaw, jsJoin (jsArraySet (jsSplit u.url '/') 7 version)⟩
  | .jsDelivr => JsDelivr.at u.url version

/-!
Version fetchers. A network fetch is embedded as the parsed response it
would produce: for the JSON dialects an `Except JsErr (Option (List String))`
(`.error` = failed request or malformed JSON, `.ok none` = document without a
usable `versions` field, `.ok (some ...)` = the version array or the key list
of the `versions` object); for the feed dialects a page function. Every model
returns the updated cache and the number of fetches it performed, so the
caching and pagination claims can be stated exactly.
-/

/-- A registry version cache (`Map<string, string[]>`); `set` prepends, and
lookups see the most recent binding, matching `Map` semantics for the keys we
touch. -/
abbrev Cache := List (String × List String)

/-- Result of a cached, possibly-failing `all()`-style fetcher. -/
structure AllResult where
  result : Except JsErr (List String)
  cache : Cache
  fetches : Nat
deriving Repr, DecidableEq

/-- Result of a feed-paginated fetcher (these never throw in the model: the
page oracle returns the extracted entry identifiers). -/
structure FeedResult where
  versions : List String
  cache : Cache
  fetches : Nat
deriving Repr, DecidableEq

/-- Numeric string, as a number (used by the modelled semver primitives). -/
def decNat? (s : String) : Option Nat :=
  if s.data ≠ [] ∧ s.data.all Char.isDigit then
    some (s.data.foldl (fun n c => n * 10 + (c.toNat - 48)) 0)
  else none

/-- Modelled from the spec: the external `@std/semver` parse primitive
("delegates to an external semantic-version comparison primitive assumed
correct") on plain `major.minor.patch` versions — a dotted numeric triple. -/
def parseSemver (s : String) : Option (Nat × Nat × Nat) :=
  match jsSplit s '.' with
  | [a, b, c] =>
    match decNat? a, decNat? b, decNat? c with
    | some x, some y, some z => some (x, y, z)
    | _, _, _ => none
  | _ => none

/-- Modelled from the spec: `semver.canParse`. -/
def canParse (s : String) : Bool :=
  (parseSemver s).isSome

/-- Lexicographic order on parsed semver triples (`semver.lessThan`). -/
def semverLtT : Nat × Nat × Nat → Nat × Nat × Nat → Bool
  | (a1, b1, c1), (a2, b2, c2) =>
    if a1 ≠ a2 then a1 < a2 else if b1 ≠ b2 then b1 < b2 else c1 < c2

/-- Parsed triple with the (never exercised) invalid case defaulted, for the
sort comparator below. -/
def parseSemver0 (s : String) : Nat × Nat × Nat :=
  (parseSemver s).getD (0, 0, 0)

/-- Insert into a sorted list, keeping the new element first on ties with
later ones only when the relation says so. -/
def insertBy (le : String → String → Bool) (x : String) : List String → List String
  | [] => [x]
  | y :: ys => if le x y then x :: y :: ys else y :: insertBy le x ys

/-- Insertion sort by a boolean "keeps order" relation, modelling
`Array.prototype.sort(comparator)` as a stable sort. -/
def sortBy (le : String → String → Bool) : List String → List String
  | [] => []
  | x :: xs => insertBy le x (sortBy le xs)

/-- The comparator of `Jsr.all`: `(a, b) => compare(parse(b), parse(a))`,
i.e. keep `a` before `b` exactly when `parse b ≤ parse a` — descending
semver order. -/
def jsrSortLe (a b : String) : Bool :=
  !(semverLtT (parseSemver0 a) (parseSemver0 b))

/-- `DenoLand.all()`: serve a cache hit without fetching; otherwise fetch
`versions.json` (`doc`), throw the "incorrect format" error when the
`versions` field is missing, and otherwise cache and return the array
exactly as the source delivered it (no reordering). A failed fetch is logged
and rethrown. -/
def denoLandAll (doc : Except JsErr (Option (List String))) (cache : Cache)
    (name : String) : AllResult :=
  match cache.lookup name with
  | some vs => ⟨.ok vs, cache, 0⟩
  | none =>
    match doc with
    | .error e => ⟨.error e, cache, 1⟩
    | .ok none =>
      ⟨.error (.thrown ("versions.json for " ++ name ++ " has incorrect format")), cache, 1⟩
    | .ok (some versions) => ⟨.ok versions, (name, versions) :: cache, 1⟩

/-- `Jsr.all()`: like `DenoLand.all` but the fetched `versions` field is an
object; `doc` carries its key list (`Object.keys` order) which is sorted
descending by semver comparison before caching. -/
def jsrAll (doc : Except JsErr (Option (List String))) (cache : Cache)
    (name : String) : AllResult :=
  match cache.lookup name with
  | some vs => ⟨.ok vs, cache, 0⟩
  | none =>
    match doc with
    | .error e => ⟨.error e, cache, 1⟩
    | .ok none =>
      ⟨.error (.thrown ("versions.json for " ++ name ++ " has incorrect format")), cache, 1⟩
    | .ok (some keys) =>
      let versions := sortBy jsrSortLe keys
      ⟨.ok versions, (name, versions) :: cache, 1⟩

/-- `Npm.all()`: like `Jsr.all` but the key list of the `versions` object is
reversed (`Object.keys(json.versions).reverse()`) before caching. -/
def npmAll (doc : Except JsErr (Option (List String))) (cache : Cache)
    (name : String) : AllResult :=
  match cache.lookup name with
  | some vs => ⟨.ok vs, cache, 0⟩
  | none =>
    match doc with
    | .error e => ⟨.error e, cache, 1⟩
    | .ok none =>
      ⟨.error (.thrown ("versions.json for " ++ name ++ " has incorrect format")), cache, 1⟩
    | .ok (some keys) =>
      let versions := keys.reverse
      ⟨.ok versions, (name, versions) :: cache, 1⟩

/-- `unpkgVersions(name)` (shared by the whole unpkg family): fetch the
browse page — always exactly one fetch, there is no cache in this path —
scrape the `<option value="...">` tokens (`options`, in page order), reverse,
and return the values. -/
def unpkgVersions (options : List String) : List String × Nat :=
  (options.reverse, 1)

/-- The `while` loop of `githubReleases`. `gas` counts the remaining allowed
iterations (the source guard is `i < 5` with `i` starting at 0 and
incremented each iteration, so `gas = 5 - i` and the guard `i < 5` is
`gas > 0`); the other guard compares the last known entry with the feed's
current last entry. Each iteration fetches the page after the previous last
entry and appends it. -/
def githubLoop (dl : Option String → List String) :
    Nat → Option String → List String → Nat → List String × Nat
  | gas, lastVersion, versions, fetches =>
    if lastVersion ≠ versions.getLast? then
      match gas with
      | 0 => (versions, fetches)
      | g + 1 =>
        githubLoop dl g versions.getLast? (versions ++ dl versions.getLast?)
          (fetches + 1)
    else (versions, fetches)

/-- `githubReleases(owner, repo, cache)`: serve a cache hit without fetching;
otherwise fetch the first releases page (`dl none`), paginate further only
when it came back full (10 entries), and cache whatever accumulated. -/
def githubReleases (dl : Option String → List String) (cache : Cache)
    (owner repo : String) : FeedResult :=
  let cacheKey := owner ++ "/" ++ repo
  match cache.lookup cacheKey with
  | some vs => ⟨vs, cache, 0⟩
  | none =>
    let versions := dl none
    let r := if versions.length = 10 then githubLoop dl 5 none versions 0
      else (versions, 0)
    ⟨r.1, (cacheKey, r.1) :: cache, 1 + r.2⟩

/-- The `while` loop of `gitlabReleases`. `i` is the page counter of the
source (starting at 1; each iteration first increments it, then fetches that
page); the source guard `i <= 3` is expressed by `gas = 4 - i` being
positive, checked together with the last-entry progress guard. -/
def gitlabLoop (dl : Nat → List String) :
    Nat → Nat → Option String → List String → Nat → List String × Nat
  | gas, i, lastVersion, versions, fetches =>
    if lastVersion ≠ versions.getLast? then
      match gas with
      | 0 => (versions, fetches)
      | g + 1 =>
        gitlabLoop dl g (i + 1) versions.getLast? (versions ++ dl (i + 1))
          (fetches + 1)
    else (versions, fetches)

/-- `gitlabReleases(owner, repo, cache)`: serve a cache hit without fetching;
otherwise fetch page 1, paginate by page number only when it came back full
(20 entries), and cache whatever accumulated. -/
def gitlabReleases (dl : Nat → List String) (cache : Cache)
    (owner repo : String) : FeedResult :=
  let cacheKey := owner ++ "/" ++ repo
  match cache.lookup cacheKey with
  | some vs => ⟨vs, cache, 0⟩
  | none =>
    let versions := dl 1
    let r := if versions.length = 20 then gitlabLoop dl 3 1 none versions 0
      else (versions, 0)
    ⟨r.1, (cacheKey, r.1) :: cache, 1 + r.2⟩

/-- Result of `nestlandReleases`. The versions are `JsVal`s because the
source maps each upload name through `name.split("@")[1]`, which is
`undefined` for a name without an `@`; its cache stores such lists. -/
structure NestResult where
  result : Except JsErr (List JsVal)
  cache : List (String × List JsVal)
  fetches : Nat
deriving Repr, DecidableEq

/-- `nestlandReleases(repo, cache)`: serve a cache hit without fetching;
otherwise fetch the upload log (`doc` carries its `packageUploadNames` field,
`none` when absent). A missing field yields the empty list; otherwise the
versions are split out of the upload names and reversed. Neither non-cached
branch ever writes the cache — the `cache.set` call present in the sibling
fetchers is absent here. -/
def nestlandReleases (doc : Except JsErr (Option (List String)))
    (cache : List (String × List JsVal)) (repo : String) : NestResult :=
  match cache.lookup repo with
  | some vs => ⟨.ok vs, cache, 0⟩
  | none =>
    match doc with
    | .error e => ⟨.error e, cache, 1⟩
    | .ok none => ⟨.ok [], cache, 1⟩
    | .ok (some names) =>
      ⟨.ok ((names.map (fun n => jsIndex (jsSplit n '@') 1)).reverse), cache, 1⟩

/-!
The Upgrade Engine (`upgradeDeps` and its helpers). The concurrent pass is
embedded as a fold over the selected aliases in launch order — a legal
schedule of the single-threaded event loop in which each entry's fetch
settles in launch order. Each entry's read of `imports[pkg]` happens at
launch time (synchronously, before any sibling's continuation has run), so
reads always go to the original map, while writes accumulate; JavaScript
never cancels the sibling continuations of a rejected `Promise.all`, so
every entry's rewrite is applied and the first rejection is what
`upgradeDeps` rethrows.
-/

/-- JavaScript `imports[pkg]` for a key taken from `Object.keys(imports)`
(always present; the default is never read). -/
def getVal (imports : List (String × String)) (k : String) : String :=
  (imports.lookup k).getD ""

/-- JavaScript `imports[pkg] = v`: update in place (keys are unique in a JS
object; a fresh key would be appended). -/
def setKey : List (String × String) → String → String → List (String × String)
  | [], k, v => [(k, v)]
  | (k2, v2) :: rest, k, v =>
    if k2 = k then (k, v) :: rest else (k2, v2) :: setKey rest k v

/-- JavaScript truthiness of a string-or-undefined-or-null value. -/
def jsFalsyVal : JsVal → Bool
  | .undefv => true
  | .nullv => true
  | .str s => s = ""

/-- Truthy semver parse of a possibly-undefined current version (`canParse`
on the only values `version()` produces). -/
def canParseJs : JsVal → Bool
  | .str s => canParse s
  | _ => false

/-- The info record `pkgInfo` resolves: the classified url, the latest
version (`all()[0]`, absent for an empty list) and the current version. -/
structure PkgVersions where
  url : RegUrl
  latest : Option String
  current : JsVal
deriving Repr, DecidableEq

/-- Modelled from the spec: `pkgInfo` lives in `pkg.ts`, which is not under
`src/`; §4.4 step 2 specifies it — classify the specifier via the Lookup
Dispatcher, fetch `all()` to get `latest = all()[0]`, and extract
`current = version()` from the existing specifier. Classification failure
surfaces as "no info"; fetch and parse failures propagate. `fetchAll` is the
network oracle for `all()`. -/
def pkgInfo (fetchAll : RegUrl → Except JsErr (List String))
    (specifier : String) : Except JsErr (Option PkgVersions) :=
  match lookup specifier REGISTRIES with
  | none => .ok none
  | some u =>
    match fetchAll u with
    | .error e => .error e
    | .ok versions =>
      match u.version with
      | .error e => .error e
      | .ok current => .ok (some ⟨u, versions.head?, current⟩)

/-- One entry of the concurrent pass: resolve `pkgInfo`; bail out (`none`)
when there is no info or no latest version (the `!info?.versions?.latest`
guard, for which an empty-string latest is also falsy); skip with a warning
when the current version does not parse as semver and `force` is unset;
otherwise rewrite to `url.at(latest).url` whenever `current !== latest`.
Returns the new specifier when the entry rewrites its alias. -/
def processEntry (fetchAll : RegUrl → Except JsErr (List String))
    (force : Bool) (specifier : String) : Except JsErr (Option String) :=
  match pkgInfo fetchAll specifier with
  | .error e => .error e
  | .ok none => .ok none
  | .ok (some info) =>
    match info.latest with
    | none => .ok none
    | some latest =>
      if latest = "" then .ok none
      else if ¬ canParseJs info.current ∧ ¬ force then .ok none
      else if info.current ≠ JsVal.str latest then
        match info.url.atVersion latest with
        | .error e => .error e
        | .ok u2 => .ok (some u2.url)
      else .ok none

/-- The concurrent pass over the selected aliases: each entry reads its
specifier from the original map (`orig`), and its rewrite lands in the
accumulating map. A failing entry records the first error (the rejection
`Promise.all` settles with) but the remaining entries still run — their
continuations are never cancelled. Returns the final map, the `upgradeFound`
flag and the recorded error, if any. -/
def pass1 (fetchAll : RegUrl → Except JsErr (List String)) (force : Bool)
    (orig : List (String × String)) :
    List String → List (String × String) → Bool → Option JsErr →
    List (String × String) × Bool × Option JsErr
  | [], acc, found, err => (acc, found, err)
  | k :: ks, acc, found, err =>
    match processEntry fetchAll force (getVal orig k) with
    | .error e => pass1 fetchAll force orig ks acc found (err <|> some e)
    | .ok none => pass1 fetchAll force orig ks acc found err
    | .ok (some newSpec) => pass1 fetchAll force orig ks (setKey acc k newSpec) true err

/-- The `requiredMinVersion` table: empty in the source (its only entry is
commented out). -/
def requiredMinVersion : List (String × String) := []

/-- One entry of the forced-minimum pass: skip absent or falsy aliases; look
the specifier up; upgrade when the current version is falsy or semver-less
than the minimum, rewriting to `url?.at(minVer).url ?? imports[pkg]`. Any
throw from `version()`, `at()` or `semver.parse` aborts the pass. -/
def minPassStep (imports : List (String × String)) (found : Bool)
    (pkg minVer : String) :
    Except JsErr (List (String × String) × Bool) :=
  match imports.lookup pkg with
  | none => .ok (imports, found)
  | some spec =>
    if spec = "" then .ok (imports, found)
    else
      let u? := lookup spec REGISTRIES
      match (match u? with
             | none => Except.ok JsVal.undefv
             | some u => u.version) with
      | .error e => .error e
      | .ok current =>
        match (if jsFalsyVal current then Except.ok true
               else
                 match current with
                 | .str c =>
                   match parseSemver c with
                   | none => .error (.thrown ("Cannot parse version: " ++ c))
                   | some pc =>
                     match parseSemver minVer with
                     | none => .error (.thrown ("Cannot parse version: " ++ minVer))
                     | some pm => .ok (semverLtT pc pm)
                 | _ => .ok true) with
        | .error e => .error e
        | .ok true =>
          match u? with
          | none => .ok (setKey imports pkg spec, true)
          | some u =>
            match u.atVersion minVer with
            | .error e => .error e
            | .ok u2 => .ok (setKey imports pkg u2.url, true)
        | .ok false => .ok (imports, found)

/-- The sequential forced-minimum pass over the `requiredMinVersion` table;
a throw aborts the loop, keeping the mutations applied so far. -/
def minPass :
    List (String × String) → List (String × String) → Bool →
    List (String × String) × Bool × Option JsErr
  | [], imports, found => (imports, found, none)
  | (pkg, minVer) :: rest, imports, found =>
    match minPassStep imports found pkg minVer with
    | .error e => (imports, found, some e)
    | .ok r => minPass rest r.1 r.2

/-- Result of `upgradeDeps`: the dependency map (mutated in place by the
source), the "at least one specifier changed" flag it returns, and the error
it rethrows, if any. -/
structure UpgradeResult where
  imports : List (String × String)
  changed : Bool
  err : Option JsErr
deriving Repr, DecidableEq

/-- `upgradeDeps(importMap, logs, deps)`: filter the aliases by the inclusion
pattern, run the concurrent pass, and — only when it did not reject — the
forced-minimum pass over `requiredMinVersion`. -/
def upgradeDeps (deps : JsRegex) (imports : List (String × String))
    (fetchAll : RegUrl → Except JsErr (List String)) (force : Bool) :
    UpgradeResult :=
  let keys := (imports.map Prod.fst).filter (fun k => jsTest deps k)
  match pass1 fetchAll force imports keys imports false none with
  | (i1, f1, some e) => ⟨i1, f1, some e⟩
  | (i1, f1, none) =>
    match minPass requiredMinVersion i1 f1 with
    | (i2, f2, e2) => ⟨i2, f2, e2⟩

/-!
Concrete inputs used by the theorems below.
-/

/-- A GitHub releases feed that always returns a full page (10 entries) of
fresh identifiers: the page after cursor `c` is `c.0, ..., c.9`. -/
def ghFreshPage (cursor : Option String) : List String :=
  (List.range 10).map (fun k => cursor.getD "r" ++ "." ++ toString k)

/-- A GitHub releases feed that returns the same full page forever. -/
def ghConstPage (_ : Option String) : List String :=
  (List.range 10).map (fun k => "t" ++ toString k)

/-- A GitLab tags feed that always returns a full page (20 entries) of fresh
identifiers: page `p` is `p.0, ..., p.19`. -/
def glFreshPage (p : Nat) : List String :=
  (List.range 20).map (fun k => toString p ++ "." ++ toString k)

/-- A GitLab tags feed that returns the same full page forever. -/
def glConstPage (_ : Nat) : List String :=
  (List.range 20).map (fun k => "t" ++ toString k)

/-- Inclusion pattern of the C6 run: the regex `.` (matches every alias). -/
def c6re : JsRegex := ⟨false, .dot⟩

/-- Dependency map of the C6 run: two npm aliases. -/
def c6imports : List (String × String) :=
  [("a", "npm:foo@1.0.0"), ("b", "npm:bar@1.0.0")]

/-- Version oracle of the C6 run: entry `a` resolves, entry `b`'s fetch
fails. -/
def c6fetch : RegUrl → Except JsErr (List String) := fun u =>
  if u.url = "npm:foo@1.0.0" then .ok ["2.0.0", "1.0.0"]
  else .error (.thrown "network error")

/-- Inclusion pattern of the C9 run: the regex `@scope/.*`. -/
def c9re : JsRegex := ⟨false, pseq [pstr "@scope/", .star false .dot]⟩

/-- Dependency map of the C9 run (the one the spec's upgrade example
prescribes). -/
def c9imports : List (String × String) :=
  [("@scope/pkg", "jsr:@scope/pkg@^1.0.0")]

/-- Mocked `all()` of the C9 run. -/
def c9fetch : RegUrl → Except JsErr (List String) := fun _ =>
  .ok ["1.2.0", "1.0.0"]

/-- `nestlandReleases` never writes its cache: whatever branch runs, the
cache comes back unchanged (the `cache.set` call present in the sibling
fetchers is missing here). -/
theorem nestlandReleases_cache_eq (doc : Except JsErr (Option (List String)))
    (cache : List (String × List JsVal)) (repo : String) :
    (nestlandReleases doc cache repo).cache = cache := by
  cases h : List.lookup repo cache with
  | some vs => simp [nestlandReleases, h]
  | none =>
    cases doc with
    | error e => simp [nestlandReleases, h]
    | ok o =>
      cases o with
      | none => simp [nestlandReleases, h]
      | some names => simp [nestlandReleases, h]

/-!
The claims.
-/

/-- C1: the claim "for every supported registry dialect, constructing a
RegistryUrl from a canonical example specifier and calling `at(v).version()`
returns exactly `v`" fails on the code. For `JsDelivr`,
`at("2.0.0").version()` on the canonical example returns `"repo@2.0.0"`,
not `"2.0.0"`: `JsDelivr.at` constructs a `GithubRaw`, whose `version()`
reads path segment 5, which in a jsDelivr url is `repo@version`. The
round-trip does hold for, e.g., the `DenoLand` and `Jsr` canonical
examples. -/
theorem C1_at_version_roundtrip_fails_for_jsdelivr :
    ((RegUrl.atVersion ⟨.jsDelivr, "https://cdn.jsdelivr.net/gh/user/repo@1.0.0/mod.ts"⟩
        "2.0.0").bind RegUrl.version) = .ok (.str "repo@2.0.0")
    ∧ JsVal.str "repo@2.0.0" ≠ JsVal.str "2.0.0"
    ∧ ((RegUrl.atVersion ⟨.denoLand, "https://deno.land/std@0.100.0/version.ts"⟩
        "0.200.0").bind RegUrl.version) = .ok (.str "0.200.0")
    ∧ ((RegUrl.atVersion ⟨.jsr, "jsr:@scope/pkg@1.0.0"⟩ "2.0.0").bind RegUrl.version)
      = .ok (.str "2.0.0") :=
  ⟨by decide, by decide, by decide, by decide⟩

/-- C2: the claim "`u.at(v)` returns a new instance of the same variant as
`u`" fails on the code. `GitlabRaw.at` rewrites the version segment
correctly (segment 7 replaced, sub-path preserved) but constructs a
`GithubRaw` instance, not a `GitlabRaw`; `JsDelivr.at` likewise constructs
a `GithubRaw`. For, e.g., `DenoLand` the same-variant property holds. (The
receiver is a value in this embedding, so non-mutation is by
construction.) -/
theorem C2_at_constructs_foreign_variant :
    RegUrl.atVersion ⟨.gitlabRaw, "https://gitlab.com/owner/repo/-/raw/1.0.0/mod.ts"⟩ "2.0.0"
      = .ok ⟨.githubRaw, "https://gitlab.com/owner/repo/-/raw/2.0.0/mod.ts"⟩
    ∧ RegTag.githubRaw ≠ RegTag.gitlabRaw
    ∧ (RegUrl.atVersion ⟨.jsDelivr, "https://cdn.jsdelivr.net/gh/user/repo@1.0.0/mod.ts"⟩
        "2.0.0").map RegUrl.tag = .ok .githubRaw
    ∧ RegUrl.atVersion ⟨.denoLand, "https://deno.land/x/pkg@1.0.0/mod.ts"⟩ "2.0.0"
      = .ok ⟨.denoLand, "https://deno.land/x/pkg@2.0.0/mod.ts"⟩ :=
  ⟨by decide, by decide, by decide, by decide⟩

/-- C3: on a feed of indefinitely full fresh pages, the GitHub fetcher
performs exactly 5 additional fetches after the first, as the claim states —
but the GitLab fetcher fetches 4 pages in total (pages 1 to 4: the loop
guard `i <= 3` admits the iterations at `i = 1, 2, 3`, each fetching page
`i + 1` after the initial fetch of page 1), not the 3 total pages the claim
(and the source's own comment) states. Both loops do stop as soon as a newly
fetched page's last entry equals the last entry already known: on a feed
repeating one page forever, each fetcher performs exactly one additional
fetch. -/
theorem C3_pagination_bounds :
    (githubReleases ghFreshPage [] "o" "r").fetches = 1 + 5
    ∧ (gitlabReleases glFreshPage [] "o" "r").fetches = 1 + 3
    ∧ (1 + 3 : Nat) ≠ 3
    ∧ (githubReleases ghConstPage [] "o" "r").fetches = 2
    ∧ (gitlabReleases glConstPage [] "o" "r").fetches = 2 :=
  ⟨by decide, by decide, by decide, by decide, by decide⟩

/-- C10: when the nest.land upload log carries no `packageUploadNames`
field, `nestlandReleases` resolves to the empty list — one fetch, no error —
and never writes the version cache (indeed no branch of `nestlandReleases`
ever writes it). -/
theorem C10_nestland_missing_field_empty_and_uncached :
    (∀ repo, nestlandReleases (.ok none) [] repo = ⟨.ok [], [], 1⟩)
    ∧ ∀ doc cache repo, (nestlandReleases doc cache repo).cache = cache :=
  ⟨fun _ => rfl, nestlandReleases_cache_eq⟩

/-- C4 counterexample: the claim "for every registry dialect, calling
`all()` twice on equivalent package keys issues exactly one network fetch"
is false at NestLand: two successive `nestlandReleases` calls for the same
repo (threading the cache of the first into the second) perform two fetches,
because the fetcher never writes its cache. -/
theorem C4_cex_nestland_fetches_twice :
    (nestlandReleases (.ok (some ["pkg@1.0.0"])) [] "pkg").fetches
      + (nestlandReleases (.ok (some ["pkg@1.0.0"]))
          (nestlandReleases (.ok (some ["pkg@1.0.0"])) [] "pkg").cache "pkg").fetches = 2
    ∧ (2 : Nat) ≠ 1 :=
  ⟨by decide, by decide⟩

/-- C4 as amended: the dialects that populate a version cache — DenoLand,
Jsr, Npm and the GitHub/GitLab feed fetchers — are fetch-once: a call that
finds its key cached performs no fetch and returns the stored list
unchanged, and a miss performs one fetch and writes the computed list under
its key. The unpkg-family dialects share `unpkgVersions`, which has no cache
and fetches on every call; NestLand checks a cache but never writes it, so
equivalent NestLand calls fetch every time. -/
theorem C4_amended_cache_write_once :
    (∀ keys name doc2, npmAll doc2 [(name, keys)] name = ⟨.ok keys, [(name, keys)], 0⟩)
    ∧ (∀ keys name, npmAll (.ok (some keys)) [] name
        = ⟨.ok keys.reverse, [(name, keys.reverse)], 1⟩)
    ∧ (∀ vs name doc2, denoLandAll doc2 [(name, vs)] name = ⟨.ok vs, [(name, vs)], 0⟩)
    ∧ (∀ vs name, denoLandAll (.ok (some vs)) [] name = ⟨.ok vs, [(name, vs)], 1⟩)
    ∧ (∀ keys name doc2, jsrAll doc2 [(name, keys)] name = ⟨.ok keys, [(name, keys)], 0⟩)
    ∧ (∀ keys name, jsrAll (.ok (some keys)) [] name
        = ⟨.ok (sortBy jsrSortLe keys), [(name, sortBy jsrSortLe keys)], 1⟩)
    ∧ (∀ dl v owner repo rest, githubReleases dl ((owner ++ "/" ++ repo, v) :: rest) owner repo
        = ⟨v, (owner ++ "/" ++ repo, v) :: rest, 0⟩)
    ∧ (∀ dl v owner repo rest, gitlabReleases dl ((owner ++ "/" ++ repo, v) :: rest) owner repo
        = ⟨v, (owner ++ "/" ++ repo, v) :: rest, 0⟩)
    ∧ (∀ options, (unpkgVersions options).2 = 1)
    ∧ (∀ doc cache repo, (nestlandReleases doc cache repo).cache = cache) := by
  refine ⟨?_, fun keys name => rfl, ?_, fun vs name => rfl, ?_, fun keys name => rfl,
    ?_, ?_, fun options => rfl, nestlandReleases_cache_eq⟩
  · intro keys name doc2
    simp [npmAll, List.lookup]
  · intro vs name doc2
    simp [denoLandAll, List.lookup]
  · intro keys name doc2
    simp [jsrAll, List.lookup]
  · intro dl v owner repo rest
    simp [githubReleases, List.lookup]
  · intro dl v owner repo rest
    simp [gitlabReleases, List.lookup]

/-- C5: `lookup` returns the first variant of the given priority list whose
classification regexp matches the specifier, and `undefined` when none does;
the canonical scoped unpkg specifier matches both the scoped and the
unscoped pattern and is classified as the scoped variant, and in the default
`REGISTRIES` order every scoped variant precedes its unscoped
counterpart. -/
theorem C5_lookup_first_match_and_scoped_priority :
    (∀ url regs, lookup url regs
      = (regs.find? (fun R => jsTest (regexpOf R) url)).map (fun R => ⟨R, url⟩))
    ∧ jsTest (regexpOf .unpkgScope) "https://unpkg.com/@scope/pkg@1.0.0/mod.ts" = true
    ∧ jsTest (regexpOf .unpkg) "https://unpkg.com/@scope/pkg@1.0.0/mod.ts" = true
    ∧ lookup "https://unpkg.com/@scope/pkg@1.0.0/mod.ts" REGISTRIES
      = some ⟨.unpkgScope, "https://unpkg.com/@scope/pkg@1.0.0/mod.ts"⟩
    ∧ lookup "not a registry specifier" REGISTRIES = none
    ∧ REGISTRIES.indexOf .unpkgScope < REGISTRIES.indexOf .unpkg
    ∧ REGISTRIES.indexOf .pikaScope < REGISTRIES.indexOf .pika
    ∧ REGISTRIES.indexOf .skypackScope < REGISTRIES.indexOf .skypack
    ∧ REGISTRIES.indexOf .esmShScope < REGISTRIES.indexOf .esmSh := by
  refine ⟨?_, by decide, by decide, by decide, by decide, by decide, by decide,
    by decide, by decide⟩
  intro url regs
  induction regs with
  | nil => rfl
  | cons R rest ih =>
    by_cases h : jsTest (regexpOf R) url <;> simp [lookup, List.find?, h, ih]

/-- C7 counterexample: the claim "dialects whose single-shot JSON source
returns a versions array reverse that array before returning it" is false at
DenoLand (the array-returning dialect): on a cache miss its `all()` returns
the fetched `versions` array exactly as delivered, not reversed. -/
theorem C7_cex_denoland_not_reversed :
    (denoLandAll (.ok (some ["0.1.0", "0.2.0"])) [] "std").result
      = .ok ["0.1.0", "0.2.0"]
    ∧ (["0.1.0", "0.2.0"] : List String) ≠ ["0.2.0", "0.1.0"] :=
  ⟨by decide, by decide⟩

/-- C7 as amended: the reordering is per dialect, not uniform. `Npm.all`
reverses the key list of its `versions` object and the unpkg scraper
reverses the scraped option list, but `DenoLand.all` returns the fetched
`versions` array unchanged, relying on the source's native newest-first
order; `Jsr.all` sorts its keys descending by semver. -/
theorem C7_amended_per_dialect_ordering :
    (∀ keys name, (npmAll (.ok (some keys)) [] name).result = .ok keys.reverse)
    ∧ (∀ vs name, (denoLandAll (.ok (some vs)) [] name).result = .ok vs)
    ∧ (∀ options, (unpkgVersions options).1 = options.reverse)
    ∧ (∀ keys name, (jsrAll (.ok (some keys)) [] name).result
        = .ok (sortBy jsrSortLe keys)) :=
  ⟨fun _ _ => rfl, fun _ _ => rfl, fun _ => rfl, fun _ _ => rfl⟩

/-- C8: the claim "`version()` ... fails with a version-not-found condition
when the raw string carries no version" fails on the code. On the
version-less specifier `npm:pkg`, `Npm.version` returns `undefined` (a
non-version value, no error); on `jsr:pkg`, `Jsr.version` throws a TypeError
from `undefined.startsWith`; in fact `Npm.version` can never produce the
"Unable to find version" error for any url, because an unmatched capture
group is `undefined`, never `null`, so the `version === null` guard never
fires. -/
theorem C8_version_null_guard_never_fires :
    RegUrl.version ⟨.npm, "npm:pkg"⟩ = .ok .undefv
    ∧ RegUrl.version ⟨.jsr, "jsr:pkg"⟩
      = .error (.typeError "Cannot read properties of undefined (reading startsWith)")
    ∧ ∀ s, RegUrl.version ⟨.npm, s⟩ ≠ .error (.thrown ("Unable to find version in " ++ s)) := by
  refine ⟨by decide, by decide, ?_⟩
  intro s
  show Npm.version s ≠ _
  unfold Npm.version
  cases h : jsSearch Npm.parseRegex s with
  | none => simp
  | some m =>
    have hg : jsGroup s m 2 ≠ .nullv := by
      unfold jsGroup
      cases h2 : (m.2.2.find? (fun t => t.1 = 2)).map (fun t => t.2) <;> simp
    simp [hg]

/-- Helper for C6: once the error accumulator of the concurrent pass holds
an error, the pass ends with an error recorded. -/
theorem pass1_err_isSome (fetchAll : RegUrl → Except JsErr (List String))
    (force : Bool) (orig : List (String × String)) (ks : List String)
    (acc : List (String × String)) (found : Bool) (e : JsErr) :
    (pass1 fetchAll force orig ks acc found (some e)).2.2.isSome = true := by
  induction ks generalizing acc found e with
  | nil => rfl
  | cons k ks ih =>
    simp only [pass1]
    cases h : processEntry fetchAll force (getVal orig k) with
    | error e2 => exact ih _ _ _
    | ok o =>
      cases o with
      | none => exact ih _ _ _
      | some ns => exact ih _ _ _

/-- Helper for C6: if any selected entry fails, the concurrent pass ends
with an error recorded, whatever the accumulator state. -/
theorem pass1_err_of_entry_err (fetchAll : RegUrl → Except JsErr (List String))
    (force : Bool) (orig : List (String × String)) (ks : List String) :
    ∀ (acc : List (String × String)) (found : Bool) (err : Option JsErr),
    (∃ k ∈ ks, ∃ e, processEntry fetchAll force (getVal orig k) = .error e) →
    (pass1 fetchAll force orig ks acc found err).2.2.isSome = true := by
  induction ks with
  | nil =>
    intro acc found err h
    rcases h with ⟨k, hk, _⟩
    cases hk
  | cons k0 ks ih =>
    intro acc found err h
    rcases h with ⟨k, hk, e, he⟩
    rcases List.mem_cons.mp hk with heq | hk2
    · subst heq
      simp only [pass1, he]
      cases err with
      | none => exact pass1_err_isSome fetchAll force orig ks acc found e
      | some e0 => exact pass1_err_isSome fetchAll force orig ks acc found e0
    · simp only [pass1]
      cases hp : processEntry fetchAll force (getVal orig k0) with
      | error e2 =>
        cases err with
        | none => exact pass1_err_isSome fetchAll force orig ks acc found e2
        | some e0 => exact pass1_err_isSome fetchAll force orig ks acc found e0
      | ok o =>
        cases o with
        | none => exact ih _ _ _ ⟨k, hk2, e, he⟩
        | some ns => exact ih _ _ _ ⟨k, hk2, e, he⟩

/-- C6 as amended: if any selected entry's version fetch fails, the failure
propagates and `upgradeDeps` rejects (the whole batch fails) — but rewrites
from other entries of the same pass are still applied to the in-place
dependency map: JavaScript never cancels the sibling continuations of a
rejected `Promise.all`, so in the concrete run below the batch fails on
entry `b` while entry `a`'s specifier has already been rewritten. -/
theorem C6_batch_failure_applies_sibling_rewrites :
    (∀ (fetchAll : RegUrl → Except JsErr (List String)) (force : Bool)
      (deps : JsRegex) (imports : List (String × String)),
      (∃ k ∈ (imports.map Prod.fst).filter (fun k => jsTest deps k),
        ∃ e, processEntry fetchAll force (getVal imports k) = .error e) →
      (upgradeDeps deps imports fetchAll force).err.isSome = true)
    ∧ upgradeDeps c6re c6imports c6fetch false
      = ⟨[("a", "npm:foo@2.0.0"), ("b", "npm:bar@1.0.0")], true,
         some (.thrown "network error")⟩ := by
  constructor
  · intro fetchAll force deps imports h
    unfold upgradeDeps
    have hp := pass1_err_of_entry_err fetchAll force imports
      ((imports.map Prod.fst).filter (fun k => jsTest deps k)) imports false none h
    rcases he : pass1 fetchAll force imports
        ((imports.map Prod.fst).filter (fun k => jsTest deps k)) imports false none
      with ⟨i1, f1, e1⟩
    rw [he] at hp
    cases e1 with
    | none => simp at hp
    | some e => simp [he]
  · decide

/-- C6 witness: the batch-failure half of the theorem, applied at the
concrete two-entry run (entry `b`'s fetch fails). -/
theorem C6_batch_failure_witness :
    (upgradeDeps c6re c6imports c6fetch false).err.isSome = true :=
  C6_batch_failure_applies_sibling_rewrites.1 c6fetch false c6re c6imports
    ⟨"b", by decide, .thrown "network error", by decide⟩

/-- C6 counterexample: the claim "no other entry's rewrite is applied to the
dependency map" is false in the concrete run — the batch fails (entry `b`),
yet entry `a`'s alias has been rewritten away from its original specifier. -/
theorem C6_cex_partial_mutation_on_failure :
    (upgradeDeps c6re c6imports c6fetch false).err.isSome = true
    ∧ getVal (upgradeDeps c6re c6imports c6fetch false).imports "a" = "npm:foo@2.0.0"
    ∧ getVal c6imports "a" = "npm:foo@1.0.0"
    ∧ ("npm:foo@2.0.0" : String) ≠ "npm:foo@1.0.0" :=
  ⟨by decide, by decide, by decide, by decide⟩

/-- C9 counterexample: running the Upgrade Engine on
`{"@scope/pkg": "jsr:@scope/pkg@^1.0.0"}` with inclusion pattern
`@scope/.*` and versions `["1.2.0","1.0.0"]` rewrites the specifier to
`jsr:@scope/pkg@1.2.0`, not the claimed `jsr:@scope/pkg@^1.2.0`: `Jsr.at`
writes the new version verbatim, so the `^` range prefix of the old
specifier is not preserved. -/
theorem C9_cex_caret_not_preserved :
    upgradeDeps c9re c9imports c9fetch false
      = ⟨[("@scope/pkg", "jsr:@scope/pkg@1.2.0")], true, none⟩
    ∧ ("jsr:@scope/pkg@1.2.0" : String) ≠ "jsr:@scope/pkg@^1.2.0" :=
  ⟨by decide, by decide⟩

/-- C9 as amended: the run yields `changed = true` and rewrites the entry to
`jsr:@scope/pkg@1.2.0` — the version segment is replaced by the bare latest
version (the `^` range prefix is dropped) and only the version segment
changes: with a trailing sub-path the rewrite yields
`jsr:@scope/pkg@1.2.0/sub.ts`, name and sub-path preserved. -/
theorem C9_amended_upgrade_example :
    upgradeDeps c9re c9imports c9fetch false
      = ⟨[("@scope/pkg", "jsr:@scope/pkg@1.2.0")], true, none⟩
    ∧ upgradeDeps c9re [("@scope/pkg", "jsr:@scope/pkg@^1.0.0/sub.ts")] c9fetch false
      = ⟨[("@scope/pkg", "jsr:@scope/pkg@1.2.0/sub.ts")], true, none⟩ :=
  ⟨by decide, by decide⟩
